import Mathlib

/-!
Verification development for the MongoSync repository: a shallow embedding of
the MongoDB client registry (`src/services/mongodb.ts`), the query-gateway API
routes (`src/app/api/mongodb/**`), and the identifier-coercion helper
(`convertIdFilter` in `src/app/api/mongodb/documents/route.ts`), together with
theorems settling the specification claims about them.
-/

namespace MongoSync

/-! ## JSON values

Request bodies, filters, documents and response payloads are JSON values
(`await request.json()` output): null, booleans, numbers, strings, arrays and
objects.  Numbers are modelled as integers (no float-specific behavior is
relevant to any operation modelled here).  Objects are insertion-ordered
key/value lists, as in JavaScript; keys are unique in any object produced by
`JSON.parse`.
-/

inductive Json where
  | null : Json
  | bool (b : Bool) : Json
  | num (n : Int) : Json
  | str (s : String) : Json
  | arr (elems : List Json) : Json
  | obj (fields : List (String × Json)) : Json

/-- First value stored under key `k` in an insertion-ordered field list
(JavaScript property lookup `o[k]`). -/
def lookupField {α : Type} : List (String × α) → String → Option α
  | [], _ => none
  | (k', v) :: rest, k => if k' = k then some v else lookupField rest k

/-- JavaScript property access `j[k]`: defined only on objects; on any other
value (or an absent key) the result is `undefined`, modelled as `none`. -/
def getField (j : Json) (k : String) : Option Json :=
  match j with
  | .obj kvs => lookupField kvs k
  | _ => none

/-- JavaScript truthiness of a JSON value (`!x` is `!jsTruthy x`):
`null`, `false`, `0` and `""` are falsy; arrays and objects are always truthy. -/
def jsTruthy : Json → Bool
  | .null => false
  | .bool b => b
  | .num n => n != 0
  | .str s => s != ""
  | .arr _ => true
  | .obj _ => true

/-- Truthiness of a possibly-absent field: an absent field is `undefined`,
which is falsy. -/
def present (o : Option Json) : Bool :=
  match o with
  | some v => jsTruthy v
  | none => false

/-! ## Identifier coercion (`convertIdFilter`, documents/route.ts lines 10-33)

`convertIdFilter` receives a value parsed from the request body (so a `Json`
value: the `ObjectId` class cannot appear in `JSON.parse` output) and produces
a value in which `_id` fields may have been replaced by `ObjectId` instances.
The output type `ConvVal` therefore has an `oid` constructor and no array
constructor: the source treats every non-null `typeof === 'object'` value —
plain objects and arrays alike — with `const converted = { ...filter }`, so a
nested array is spread into a plain object keyed by its indices
(`{...["a"]}` is `{"0": "a"}`).
-/

inductive ConvVal where
  | null : ConvVal
  | bool (b : Bool) : ConvVal
  | num (n : Int) : ConvVal
  | str (s : String) : ConvVal
  | oid (hex : String) : ConvVal
  | obj (fields : List (String × ConvVal)) : ConvVal

/-- Hexadecimal digit (either case), as accepted by the `ObjectId`
constructor's 24-character hex-string form. -/
def isHexChar (c : Char) : Bool :=
  c.isDigit || ('a' ≤ c && c ≤ 'f') || ('A' ≤ c && c ≤ 'F')

/-- Whether `new ObjectId(s)` succeeds: exactly on 24-character hex strings;
on any other string it throws (and the source's `catch` keeps the original
string).  Stated over the string's character list. -/
def isValidObjectIdString (s : String) : Bool :=
  s.data.length == 24 && s.data.all isHexChar

mutual

/-- Embedding of `convertIdFilter` (documents/route.ts lines 10-33).
`!filter || typeof filter !== 'object'` returns the argument itself; an object
(or array, which is also `typeof 'object'`) is rebuilt: `_id` string values
that parse as ObjectIds are coerced (a failed `new ObjectId` is caught and the
string kept), and the `for...in` loop recurses into every non-null,
non-`ObjectId` object-typed value. -/
def convertIdFilter : Json → ConvVal
  | .null => .null
  | .bool b => .bool b
  | .num n => .num n
  | .str s => .str s
  | .obj kvs => .obj (convertFields kvs)
  | .arr vs => .obj (convertItems 0 vs)

/-- One pass over the fields of `converted`: the `_id`-specific string
coercion (with its silent `catch` fallback) followed by the `for...in`
recursion into nested objects.  A string `_id` is truthy exactly when
non-empty, and the empty string is not a valid ObjectId, so the single
`isValidObjectIdString` test matches `converted._id && typeof ... === 'string'`
followed by the guarded constructor call. -/
def convertFields : List (String × Json) → List (String × ConvVal)
  | [] => []
  | (k, v) :: rest =>
    let v' : ConvVal :=
      match v with
      | .str s => if k = "_id" && isValidObjectIdString s then .oid s else .str s
      | .obj kvs => convertIdFilter (.obj kvs)
      | .arr vs => convertIdFilter (.arr vs)
      | .null => .null
      | .bool b => .bool b
      | .num n => .num n
    (k, v') :: convertFields rest

/-- Spreading an array into `converted` gives an object with the decimal
indices as keys; `"0"`, `"1"`, ... are never `"_id"`, so only the recursion
applies to array elements. -/
def convertItems (i : Nat) : List Json → List (String × ConvVal)
  | [] => []
  | v :: rest =>
    let v' : ConvVal :=
      match v with
      | .obj kvs => convertIdFilter (.obj kvs)
      | .arr vs => convertIdFilter (.arr vs)
      | .null => .null
      | .bool b => .bool b
      | .num n => .num n
      | .str s => .str s
    (toString i, v') :: convertItems (i + 1) rest

end

/-- Field lookup in a converted object (used to state where coercion landed). -/
def lookupConv : List (String × ConvVal) → String → Option ConvVal
  | [], _ => none
  | (k', v) :: rest, k => if k' = k then some v else lookupConv rest k

/-- Value computed for one field by `convertFields` (the `_id` coercion step
plus the `for...in` recursion), as a standalone function of the key and the
original value; used to describe `convertFields` pointwise. -/
def convertEntry (k : String) (v : Json) : ConvVal :=
  match v with
  | .str s => if k = "_id" && isValidObjectIdString s then .oid s else .str s
  | .obj kvs => convertIdFilter (.obj kvs)
  | .arr vs => convertIdFilter (.arr vs)
  | .null => .null
  | .bool b => .bool b
  | .num n => .num n

/-- JavaScript `Array.isArray` on a JSON value. -/
def isArrayJson : Json → Bool
  | Json.arr _ => true
  | _ => false

/-! ### Gateway dispatch of coerced values (documents/route.ts handlers)

Each mutating/reading handler coerces the *filter* with `convertIdFilter`
before calling the service layer; the PATCH handler passes the `update` body
through unchanged (`updateDocument(uri, database, collection, convertedFilter,
update)`, line 171). -/

/-- Filter dispatched by the POST (find) handler, line 55. -/
def findDispatchedFilter (filter : Json) : ConvVal :=
  convertIdFilter filter

/-- (filter, update) pair dispatched by the PATCH handler, lines 169-171:
the filter is coerced, the update body is not. -/
def patchDispatch (filter update : Json) : ConvVal × Json :=
  (convertIdFilter filter, update)

/-- Filter dispatched by the DELETE handler, lines 225-227. -/
def deleteDispatchedFilter (filter : Json) : ConvVal :=
  convertIdFilter filter

/-! ## Client registry (`src/services/mongodb.ts` lines 8-49)

The registry state is the module-level `clientCache` map plus the set of
`MongoClient` objects that have been constructed so far.  Each client record
notes the URI it was built for, the options object passed to the constructor
(`getMongoClient` passes `{maxPoolSize: 10, minPoolSize: 2,
serverSelectionTimeoutMS: 5000}`; the manage-collection and manage-database
routes pass none), whether `connect()` succeeded, and whether `close()` has
been called.  Whether a given network operation (a cached client's ping, a new
client's `connect`) succeeds is decided by the environment, passed in as
booleans.
-/

structure MongoClientOptions where
  maxPoolSize : Nat
  minPoolSize : Nat
  serverSelectionTimeoutMS : Nat
deriving DecidableEq, Repr

/-- The options object built at mongodb.ts lines 28-32. -/
def mongoClientOptions : MongoClientOptions :=
  { maxPoolSize := 10, minPoolSize := 2, serverSelectionTimeoutMS := 5000 }

structure ClientRec where
  id : Nat
  uri : String
  opts : Option MongoClientOptions
  connected : Bool
  closed : Bool
deriving DecidableEq, Repr

structure RegState where
  cache : List (String × Nat)
  clients : List ClientRec
  nextId : Nat
deriving DecidableEq, Repr

/-- The empty registry: module load time, before any request. -/
def RegState.init : RegState := ⟨[], [], 0⟩

/-- `clientCache.get(uri)` / `clientCache.has(uri)`. -/
def lookupCache (cache : List (String × Nat)) (uri : String) : Option Nat :=
  lookupField cache uri

/-- `clientCache.set(uri, client)`: replace in place if the key exists,
append otherwise (JavaScript `Map` insertion-order semantics). -/
def setCache (cache : List (String × Nat)) (uri : String) (cid : Nat) :
    List (String × Nat) :=
  match cache with
  | [] => [(uri, cid)]
  | (k, v) :: rest =>
    if k = uri then (k, cid) :: rest else (k, v) :: setCache rest uri cid

/-- `clientCache.delete(uri)`. -/
def eraseCache (cache : List (String × Nat)) (uri : String) : List (String × Nat) :=
  cache.filter (fun kv => kv.1 ≠ uri)

/-- Mark the client with the given id closed (`await client.close()`). -/
def markClosed (clients : List ClientRec) (cid : Nat) : List ClientRec :=
  clients.map (fun c => if c.id = cid then { c with closed := true } else c)

/-- Find a client record by id. -/
def findClient (clients : List ClientRec) (cid : Nat) : Option ClientRec :=
  clients.find? (fun c => c.id = cid)

/-- `new MongoClient(uri[, opts])` followed by `await client.connect()`.
The client object exists whether or not the connection attempt succeeds; a
failed `connect` throws, which the model reports as `Except.error` while
keeping the state produced so far (side effects survive a JavaScript throw). -/
def newClientAndConnect (s : RegState) (uri : String)
    (opts : Option MongoClientOptions) (connectOk : Bool) :
    RegState × Except String Nat :=
  let c : ClientRec :=
    { id := s.nextId, uri := uri, opts := opts, connected := connectOk, closed := false }
  ({ s with clients := s.clients ++ [c], nextId := s.nextId + 1 },
   if connectOk then Except.ok s.nextId else Except.error "connect failed")

/-- The fall-through creation path of `getMongoClient` (mongodb.ts lines
27-37): construct a client with the pooling options, connect, and cache it
under the URI only after `connect` succeeds. -/
def getMongoClientCreate (s : RegState) (uri : String) (connectOk : Bool) :
    RegState × Except String Nat :=
  let (s1, r) := newClientAndConnect s uri (some mongoClientOptions) connectOk
  match r with
  | Except.ok cid => ({ s1 with cache := setCache s1.cache uri cid }, Except.ok cid)
  | Except.error e => (s1, Except.error e)

/-- Embedding of `getMongoClient` (mongodb.ts lines 13-38) run to completion
with no interleaving.  `pingOk` decides the cached client's
`db('admin').command({ping: 1})` probe; `connectOk` decides a new client's
`connect()`.  On a failed probe the entry is deleted from the cache — the
evicted client is not closed — and control falls through to creation. -/
def getMongoClient (s : RegState) (uri : String) (pingOk connectOk : Bool) :
    RegState × Except String Nat :=
  match lookupCache s.cache uri with
  | some cid =>
    if pingOk then (s, Except.ok cid)
    else getMongoClientCreate { s with cache := eraseCache s.cache uri } uri connectOk
  | none => getMongoClientCreate s uri connectOk

/-- Embedding of `closeMongoClient` (mongodb.ts lines 43-49): close and evict
the cached client for the URI, if any; no-op otherwise. -/
def closeMongoClient (s : RegState) (uri : String) : RegState :=
  match lookupCache s.cache uri with
  | some cid =>
    { s with clients := markClosed s.clients cid, cache := eraseCache s.cache uri }
  | none => s

/-! ### The manage-collection route's own client
(manage-collection/route.ts lines 20-33)

The POST handler does not go through `getMongoClient`: it constructs its own
`new MongoClient(uri)` (no options) and connects it, regardless of what the
registry has cached for that URI, then closes it in a `finally` block.  The
two phases are split so the registry state *during* the operation (after
`connect`, before `close`) can be inspected. -/

/-- `const client = new MongoClient(uri); await client.connect();`
(manage-collection/route.ts lines 20-21). -/
def manageCollectionConnect (s : RegState) (uri : String) (connectOk : Bool) :
    RegState × Except String Nat :=
  newClientAndConnect s uri none connectOk

/-- The `finally { await client.close(); }` of the same handler (line 32). -/
def manageCollectionFinish (s : RegState) (cid : Nat) : RegState :=
  { s with clients := markClosed s.clients cid }

/-- The whole handler's effect on the registry state: connect, run
`createCollection` (whose success or failure does not affect the registry),
close.  If `connect` itself throws, the `finally` is never entered (the
try block starts after the `await client.connect()`). -/
def manageCollectionPOSTReg (s : RegState) (uri : String) (connectOk : Bool) :
    RegState :=
  let (s1, r) := manageCollectionConnect s uri connectOk
  match r with
  | Except.ok cid => manageCollectionFinish s1 cid
  | Except.error _ => s1

/-- Number of live clients for a URI: constructed, successfully connected,
and not closed. -/
def liveCount (s : RegState) (uri : String) : Nat :=
  (s.clients.filter (fun c => c.uri = uri && c.connected && !c.closed)).length

/-! ## `findDocuments` (mongodb.ts lines 84-121)

The collection is a finite ordered sequence of documents.  The filter's
matching semantics, the sort order and the projection are supplied by the
store; they are parameters here.  The source builds
`coll.find(filter).project?.sort?.skip(skip).limit(limit)`, reads the page
with `toArray()`, and then independently runs `countDocuments(filter)` on
the same filter, uncapped.  A driver `limit(0)` means "no limit". -/

structure FindOptions where
  projection : Option (Json → Json) := none
  sort : Option (Json → Json → Bool) := none
  limit : Option Nat := none
  skip : Option Nat := none

structure FindResult where
  documents : List Json
  total : Nat

/-- Embedding of `findDocuments`: destructuring defaults `limit = 50`,
`skip = 0` apply when the option is absent. -/
def findDocuments (coll : List Json) (filter : Json → Bool)
    (options : FindOptions) : FindResult :=
  let limit := options.limit.getD 50
  let skip := options.skip.getD 0
  let matched := coll.filter filter
  let sorted :=
    match options.sort with
    | some le => matched.mergeSort le
    | none => matched
  let paged := if limit = 0 then sorted.drop skip else (sorted.drop skip).take limit
  let projected :=
    match options.projection with
    | some p => paged.map p
    | none => paged
  { documents := projected, total := (coll.filter filter).length }

/-! ## Single-document writes (mongodb.ts lines 143-173)

`updateDocument` dispatches `coll.updateOne(filter, { $set: update })` and
`deleteDocument` dispatches `coll.deleteOne(filter)`.  The dispatched call is
reified so that both the shape of the call (updateOne — not updateMany — with
the `$set` wrapper) and its effect can be stated.  The effect of `updateOne` /
`deleteOne` on a collection follows the MongoDB driver's documented
single-document, first-match semantics; the filter's per-document meaning is a
parameter. -/

inductive UpdatePayload where
  | set (update : Json) : UpdatePayload

inductive DriverWrite where
  | updateOne (filter : ConvVal) (payload : UpdatePayload) : DriverWrite
  | deleteOne (filter : ConvVal) : DriverWrite

/-- The driver call built by `updateDocument` (mongodb.ts line 154). -/
def updateDocumentCall (filter : ConvVal) (update : Json) : DriverWrite :=
  DriverWrite.updateOne filter (UpdatePayload.set update)

/-- The driver call built by `deleteDocument` (mongodb.ts line 171). -/
def deleteDocumentCall (filter : ConvVal) : DriverWrite :=
  DriverWrite.deleteOne filter

/-- A stored document: an ordered field map. -/
abbrev DocObj := List (String × Json)

/-- MongoDB `$set` semantics: each named field is overwritten in place (or
appended if absent); fields not named in the update are untouched.  A `$set`
operand that is not an object is rejected by the server before any document
is touched; the model leaves the document unchanged in that case. -/
def applySet (doc : DocObj) (update : Json) : DocObj :=
  match update with
  | .obj us =>
    doc.map (fun kv =>
      match lookupField us kv.1 with
      | some w => (kv.1, w)
      | none => kv)
    ++ us.filter (fun kv => (lookupField doc kv.1).isNone)
  | _ => doc

/-- `updateOne`: modify the first matching document only; returns the new
collection and the modified count. -/
def updateOneSem (docs : List DocObj) (sel : DocObj → Bool) (update : Json) :
    List DocObj × Nat :=
  match docs with
  | [] => ([], 0)
  | d :: rest =>
    if sel d then (applySet d update :: rest, 1)
    else
      let (rest', n) := updateOneSem rest sel update
      (d :: rest', n)

/-- `deleteOne`: remove the first matching document only; returns the new
collection and the deleted count. -/
def deleteOneSem (docs : List DocObj) (sel : DocObj → Bool) :
    List DocObj × Nat :=
  match docs with
  | [] => ([], 0)
  | d :: rest =>
    if sel d then (rest, 1)
    else
      let (rest', n) := deleteOneSem rest sel
      (d :: rest', n)

/-! ## HTTP gateway handlers

Every route handler wraps its whole body in `try/catch` and replies with
`NextResponse.json({success: true, data} | {success: false, error}, {status})`.
The cache-suppression headers carried by some responses play no role in any
claim and are not modelled.  Store-layer calls are parameters returning
`Except String` (the caught error's `.message`); `await request.json()` is a
parameter of the same kind.  Destructuring `const {…} = body` throws a
`TypeError` when the body is `null`; on any other JSON value absent properties
are simply `undefined`. -/

structure HttpResponse where
  status : Nat
  body : Json

/-- `NextResponse.json({success: true, data: …})` (status defaults to 200). -/
def jsonSuccess (data : Json) : HttpResponse :=
  { status := 200, body := Json.obj [("success", Json.bool true), ("data", data)] }

/-- `NextResponse.json({success: false, error: …}, {status})`. -/
def jsonError (status : Nat) (msg : String) : HttpResponse :=
  { status := status,
    body := Json.obj [("success", Json.bool false), ("error", Json.str msg)] }

/-- The message of the `TypeError` thrown when destructuring a `null` body. -/
def destructureNullMsg : String :=
  "Cannot destructure property of null"

/-- Whether a JSON value is `null` (destructuring a `null` body throws). -/
def isNullJson : Json → Bool
  | Json.null => true
  | _ => false

/-- A response in the normalized gateway shape. -/
def isNormalizedResponse (r : HttpResponse) : Prop :=
  (∃ d, r = jsonSuccess d) ∨ (∃ st e, r = jsonError st e)

/-- `options.skip || 0` / `options.limit || 50` in the POST handler's page
arithmetic (documents/route.ts line 65): a falsy (absent, null, zero, …)
value falls back to the default. -/
def numOr (v : Option Json) (dflt : Int) : Int :=
  match v with
  | some (Json.num n) => if n = 0 then dflt else n
  | _ => dflt

/-- Embedding of the documents POST (find) handler
(documents/route.ts lines 36-94).  `findSvc` stands for
`findDocuments(uri, database, collection, convertedFilter, options)` and
receives exactly the values the handler dispatches: the raw `uri`/`options`
values from the body and the coerced filter. -/
def documentsPOST (body : Except String Json)
    (findSvc : Json → ConvVal → Json → Except String (List Json × Nat)) :
    HttpResponse :=
  match body with
  | Except.error e => jsonError 500 e
  | Except.ok j =>
    if isNullJson j then jsonError 500 destructureNullMsg
    else
      let uri := getField j "uri"
      let database := getField j "database"
      let collection := getField j "collection"
      let filter := (getField j "filter").getD (Json.obj [])
      let options := (getField j "options").getD (Json.obj [])
      if !(present uri) || !(present database) || !(present collection) then
        jsonError 400 "URI, database, and collection are required"
      else
        match findSvc (uri.getD Json.null) (convertIdFilter filter) options with
        | Except.error e => jsonError 500 e
        | Except.ok (docs, total) =>
          jsonSuccess (Json.obj
            [("documents", Json.arr docs),
             ("total", Json.num (Int.ofNat total)),
             ("page", Json.num
               ((numOr (getField options "skip") 0).fdiv
                  (numOr (getField options "limit") 50) + 1)),
             ("pageSize", Json.num (numOr (getField options "limit") 50))])

/-- Embedding of the documents PUT (insert) handler (lines 97-147).
`insSvc` stands for `insertDocument` and yields the inserted id. -/
def documentsPUT (body : Except String Json)
    (insSvc : Json → Json → Except String Json) : HttpResponse :=
  match body with
  | Except.error e => jsonError 500 e
  | Except.ok j =>
    if isNullJson j then jsonError 500 destructureNullMsg
    else
      let uri := getField j "uri"
      let database := getField j "database"
      let collection := getField j "collection"
      let document := getField j "document"
      if !(present uri) || !(present database) || !(present collection)
          || !(present document) then
        jsonError 400 "URI, database, collection, and document are required"
      else
        match insSvc (uri.getD Json.null) (document.getD Json.null) with
        | Except.error e => jsonError 500 e
        | Except.ok insertedId =>
          jsonSuccess (Json.obj [("insertedId", insertedId)])

/-- Embedding of the documents PATCH (update) handler (lines 150-203).
`updSvc` stands for `updateDocument(uri, database, collection,
convertedFilter, update)`; it receives the coerced filter and the *raw*
update body, and yields `modifiedCount`. -/
def documentsPATCH (body : Except String Json)
    (updSvc : Json → ConvVal → Json → Except String Nat) : HttpResponse :=
  match body with
  | Except.error e => jsonError 500 e
  | Except.ok j =>
    if isNullJson j then jsonError 500 destructureNullMsg
    else
      let uri := getField j "uri"
      let database := getField j "database"
      let collection := getField j "collection"
      let filter := getField j "filter"
      let update := getField j "update"
      if !(present uri) || !(present database) || !(present collection)
          || !(present filter) || !(present update) then
        jsonError 400 "URI, database, collection, filter, and update are required"
      else
        match updSvc (uri.getD Json.null)
            (convertIdFilter (filter.getD Json.null)) (update.getD Json.null) with
        | Except.error e => jsonError 500 e
        | Except.ok modifiedCount =>
          jsonSuccess (Json.obj [("modifiedCount", Json.num (Int.ofNat modifiedCount))])

/-- Embedding of the documents DELETE handler (lines 206-259).  `delSvc`
stands for `deleteDocument(uri, database, collection, convertedFilter)` and
yields `deletedCount`. -/
def documentsDELETE (body : Except String Json)
    (delSvc : Json → ConvVal → Except String Nat) : HttpResponse :=
  match body with
  | Except.error e => jsonError 500 e
  | Except.ok j =>
    if isNullJson j then jsonError 500 destructureNullMsg
    else
      let uri := getField j "uri"
      let database := getField j "database"
      let collection := getField j "collection"
      let filter := getField j "filter"
      if !(present uri) || !(present database) || !(present collection)
          || !(present filter) then
        jsonError 400 "URI, database, collection, and filter are required"
      else
        match delSvc (uri.getD Json.null) (convertIdFilter (filter.getD Json.null)) with
        | Except.error e => jsonError 500 e
        | Except.ok deletedCount =>
          jsonSuccess (Json.obj [("deletedCount", Json.num (Int.ofNat deletedCount))])

/-! ## Aggregation (service mongodb.ts lines 178-196, route `part_004`) -/

/-- Embedding of `executeAggregation`: `runAgg` is
`coll.aggregate(pipeline).toArray()`, called with the pipeline exactly as
given; `t0`/`t1` are the two `Date.now()` readings around the call, and the
returned object carries the results alongside the field `executionTime`. -/
def executeAggregation (pipeline : List Json)
    (runAgg : List Json → Except String (List Json)) (t0 t1 : Nat) :
    Except String Json :=
  match runAgg pipeline with
  | Except.ok results =>
    Except.ok (Json.obj
      [("results", Json.arr results),
       ("executionTime", Json.num (Int.ofNat (t1 - t0)))])
  | Except.error e => Except.error e

/-- Embedding of the aggregation POST handler (`src/unnamed/part_004` lines
8-72): required-field check, `Array.isArray(pipeline)` check, then
`executeAggregation`, whose result object is returned as `data`. -/
def aggregationPOST (body : Except String Json)
    (runAgg : Json → List Json → Except String (List Json)) (t0 t1 : Nat) :
    HttpResponse :=
  match body with
  | Except.error e => jsonError 500 e
  | Except.ok j =>
    if isNullJson j then jsonError 500 destructureNullMsg
    else
      let uri := getField j "uri"
      let database := getField j "database"
      let collection := getField j "collection"
      let pipeline := getField j "pipeline"
      if !(present uri) || !(present database) || !(present collection)
          || !(present pipeline) then
        jsonError 400 "URI, database, collection, and pipeline are required"
      else
        match pipeline.getD Json.null with
        | Json.arr stages =>
          match executeAggregation stages (runAgg (uri.getD Json.null)) t0 t1 with
          | Except.ok data => jsonSuccess data
          | Except.error e => jsonError 500 e
        | _ => jsonError 400 "Pipeline must be an array"

/-! ## Manage-collection route responses
(manage-collection/route.ts lines 9-75)

The registry-state side of this route is modelled above
(`manageCollectionPOSTReg`); the response side is modelled here.  `connect`
stands for `new MongoClient(uri)` + `await client.connect()`, `op` for the
`createCollection` / `drop` call.  These routes report errors with
`error.message || 'Failed to …'`, so an empty message falls back to the
default. -/

def manageErrMsg (e dflt : String) : String :=
  if e = "" then dflt else e

/-- Embedding of the manage-collection POST handler's response. -/
def manageCollectionPOSTResp (body : Except String Json)
    (connect : Except String Unit) (op : Except String Unit) : HttpResponse :=
  match body with
  | Except.error e => jsonError 500 (manageErrMsg e "Failed to create collection")
  | Except.ok j =>
    if isNullJson j then jsonError 500 destructureNullMsg
    else
      let uri := getField j "uri"
      let database := getField j "database"
      let collection := getField j "collection"
      if !(present uri) || !(present database) || !(present collection) then
        jsonError 400 "Missing required fields"
      else
        match connect with
        | Except.error e => jsonError 500 (manageErrMsg e "Failed to create collection")
        | Except.ok _ =>
          match op with
          | Except.error e => jsonError 500 (manageErrMsg e "Failed to create collection")
          | Except.ok _ =>
            jsonSuccess (Json.obj
              [("database", database.getD Json.null),
               ("collection", collection.getD Json.null),
               ("created", Json.bool true)])

/-- Embedding of the manage-collection DELETE handler's response. -/
def manageCollectionDELETEResp (body : Except String Json)
    (connect : Except String Unit) (op : Except String Unit) : HttpResponse :=
  match body with
  | Except.error e => jsonError 500 (manageErrMsg e "Failed to delete collection")
  | Except.ok j =>
    if isNullJson j then jsonError 500 destructureNullMsg
    else
      let uri := getField j "uri"
      let database := getField j "database"
      let collection := getField j "collection"
      if !(present uri) || !(present database) || !(present collection) then
        jsonError 400 "Missing required fields"
      else
        match connect with
        | Except.error e => jsonError 500 (manageErrMsg e "Failed to delete collection")
        | Except.ok _ =>
          match op with
          | Except.error e => jsonError 500 (manageErrMsg e "Failed to delete collection")
          | Except.ok _ =>
            jsonSuccess (Json.obj
              [("database", database.getD Json.null),
               ("collection", collection.getD Json.null),
               ("deleted", Json.bool true)])

/-! ## `validateMongoUri` (`src/lib/utils.ts` lines 32-54)

Defined in the shared utility module and invoked only by the UI's connection
form (`ConnectionManager.tsx`); no API route calls it. -/

structure UriValidation where
  valid : Bool
  error : Option String
deriving DecidableEq, Repr

/-- Character list of the `mongodb://` scheme prefix. -/
def mongoProto : List Char := "mongodb://".data

/-- Character list of the `mongodb+srv://` scheme prefix. -/
def mongoSrvProto : List Char := "mongodb+srv://".data

/-- The characters after the scheme separator.  (Stated on the character
list; `uri.startsWith p` is `p.data.isPrefixOf uri.data`.) -/
def uriAfterScheme (uri : String) : List Char :=
  if mongoSrvProto.isPrefixOf uri.data then uri.data.drop 14 else uri.data.drop 10

/-- After the prefix check, the source applies
`/^mongodb(\+srv)?:\/\/([^/]+)/`: the match succeeds exactly when at least
one character that is not `/` follows the scheme separator. -/
def uriHostOk (uri : String) : Bool :=
  match uriAfterScheme uri with
  | [] => false
  | c :: _ => c ≠ '/'

/-- Embedding of `validateMongoUri`.  The `!uri || uri.trim().length === 0`
guard holds exactly when every character is whitespace (vacuously for the
empty string), stated here over the character list. -/
def validateMongoUri (uri : String) : UriValidation :=
  if uri.data.all Char.isWhitespace then
    { valid := false, error := some "URI cannot be empty" }
  else if !(mongoProto.isPrefixOf uri.data || mongoSrvProto.isPrefixOf uri.data) then
    { valid := false, error := some "URI must start with mongodb:// or mongodb+srv://" }
  else if !(uriHostOk uri) then
    { valid := false, error := some "Invalid URI format" }
  else
    { valid := true, error := none }

/-! ## Heap-level model of `convertIdFilter`

The value-level embedding above cannot express the observation that
`convertIdFilter` *mutates* nothing: it writes only to the freshly spread
`converted` object.  Here the same source lines (documents/route.ts 10-33) are
embedded once more over an explicit JavaScript heap: objects live at
addresses, a value is a primitive or a reference, and every allocation appends
to the heap.  Recursion depth is bounded by fuel (`none` plays the role of the
stack overflow a cyclic input would cause in JavaScript; request bodies,
being `JSON.parse` output, are trees and always terminate). -/

inductive JsPrim where
  | null : JsPrim
  | undef : JsPrim
  | bool (b : Bool) : JsPrim
  | num (n : Int) : JsPrim
  | str (s : String) : JsPrim
deriving DecidableEq, Repr

inductive JsVal where
  | prim (p : JsPrim) : JsVal
  | ref (a : Nat) : JsVal
deriving DecidableEq, Repr

/-- Kind of a heap object: a plain object, an array (whose own enumerable
properties are its decimal indices), or a `bson.ObjectId` instance carrying
its hex payload. -/
inductive HKind where
  | plainObj : HKind
  | arrayObj : HKind
  | objectId (hex : String) : HKind
deriving DecidableEq, Repr

/-- A heap object: its kind plus its own enumerable string-keyed properties
(the ones `{...o}` copies and `for...in` visits). -/
structure HNode where
  kind : HKind
  fields : List (String × JsVal)
deriving DecidableEq, Repr

abbrev Heap := List HNode

/-- Address lookup. -/
def Heap.getNode (h : Heap) (a : Nat) : Option HNode := h.get? a

/-- Allocation: a fresh object goes at the next free address. -/
def Heap.alloc (h : Heap) (n : HNode) : Heap × Nat := (h ++ [n], h.length)

/-- Replace the value stored under an existing key (the assignment
`converted._id = new ObjectId(...)`; the key keeps its position). -/
def setFieldVal (fields : List (String × JsVal)) (k : String) (v : JsVal) :
    List (String × JsVal) :=
  fields.map (fun kv => if kv.1 = k then (kv.1, v) else kv)

/-- Whether a value is a reference to an `ObjectId` instance
(`converted[key] instanceof ObjectId`). -/
def isObjectIdRef (h : Heap) (v : JsVal) : Bool :=
  match v with
  | .ref a =>
    match h.getNode a with
    | some n =>
      match n.kind with
      | .objectId _ => true
      | _ => false
    | none => false
  | .prim _ => false

/-- The `_id` coercion step (documents/route.ts lines 16-23) applied to the
spread copy's fields: when `converted._id` is a truthy string that parses as
an ObjectId, a fresh `ObjectId` is allocated and assigned over it; a parse
failure is caught and changes nothing; any other `_id` is left alone.  (The
empty string is both falsy and unparsable, so the two guards collapse into
the one validity test.) -/
def coerceIdField (h : Heap) (fields : List (String × JsVal)) :
    Heap × List (String × JsVal) :=
  match lookupField fields "_id" with
  | some (JsVal.prim (JsPrim.str s)) =>
    if isValidObjectIdString s then
      let (h1, a) := h.alloc ⟨HKind.objectId s, []⟩
      (h1, setFieldVal fields "_id" (JsVal.ref a))
    else (h, fields)
  | _ => (h, fields)

/-- The `for...in` recursion (lines 26-30) over the copy's fields, threading
the heap: a value that is a non-null object and not an `ObjectId` instance is
replaced by the recursive result; primitives (including `null`) and
`ObjectId` references are kept.  `recur` is the enclosing function one fuel
level down. -/
def convFieldsWith (recur : Heap → JsVal → Option (Heap × JsVal)) :
    Heap → List (String × JsVal) → Option (Heap × List (String × JsVal))
  | h, [] => some (h, [])
  | h, (k, v) :: rest =>
    match v with
    | JsVal.prim _ =>
      match convFieldsWith recur h rest with
      | some (h', rest') => some (h', (k, v) :: rest')
      | none => none
    | JsVal.ref a =>
      match h.getNode a with
      | none => none
      | some node =>
        match node.kind with
        | HKind.objectId _ =>
          match convFieldsWith recur h rest with
          | some (h', rest') => some (h', (k, v) :: rest')
          | none => none
        | _ =>
          match recur h v with
          | none => none
          | some (h1, v') =>
            match convFieldsWith recur h1 rest with
            | some (h2, rest') => some (h2, (k, v') :: rest')
            | none => none

/-- Heap-level embedding of `convertIdFilter` (documents/route.ts 10-33).
A falsy or non-object argument is returned as is (`return filter`).  For a
reference the source spreads the object's own enumerable properties into a
fresh plain object — this is where an array input stops being an array —
runs the `_id` coercion, runs the recursive loop, and the copy is the
result.  Only fresh addresses are ever written. -/
def convertIdFilterHeap : Nat → Heap → JsVal → Option (Heap × JsVal)
  | 0, _, _ => none
  | _ + 1, h, JsVal.prim p => some (h, JsVal.prim p)
  | fuel + 1, h, JsVal.ref a =>
    match h.getNode a with
    | none => none
    | some node =>
      let (h1, fields1) := coerceIdField h node.fields
      match convFieldsWith (convertIdFilterHeap fuel) h1 fields1 with
      | none => none
      | some (h2, fields2) =>
        let (h3, a') := h2.alloc ⟨HKind.plainObj, fields2⟩
        some (h3, JsVal.ref a')

/-! # Theorems -/

theorem convertFields_eq_map (kvs : List (String × Json)) :
    convertFields kvs = kvs.map (fun kv => (kv.1, convertEntry kv.1 kv.2)) := by
  induction kvs with
  | nil => simp [convertFields]
  | cons kv rest ih =>
    obtain ⟨k, v⟩ := kv
    cases v <;> simp [convertFields, convertEntry, ih]

theorem lookupConv_convertFields (kvs : List (String × Json)) (k : String) :
    lookupConv (convertFields kvs) k = (lookupField kvs k).map (convertEntry k) := by
  rw [convertFields_eq_map]
  induction kvs with
  | nil => simp [lookupConv, lookupField]
  | cons kv rest ih =>
    obtain ⟨k', v⟩ := kv
    by_cases hk : k' = k
    · subst hk
      simp [lookupConv, lookupField]
    · simp [lookupConv, lookupField, hk, ih]

/-- C4 (amended): for every *filter*, an `_id` field supplied as a plain
string is coerced to an `ObjectId` in the dispatched value exactly when the
string is a valid 24-hex-character identifier, recursively through nested
predicate objects; when conversion fails the original string is preserved and
dispatch still proceeds.  The PATCH handler, however, coerces only the
filter: the `update` body is dispatched verbatim, uncoerced. -/
theorem convertIdFilter_coercion_contract :
    (∀ kvs s, lookupField kvs "_id" = some (Json.str s) →
        isValidObjectIdString s = true →
        lookupConv (convertFields kvs) "_id" = some (ConvVal.oid s))
  ∧ (∀ kvs s, lookupField kvs "_id" = some (Json.str s) →
        isValidObjectIdString s = false →
        lookupConv (convertFields kvs) "_id" = some (ConvVal.str s))
  ∧ (∀ kvs k inner, lookupField kvs k = some (Json.obj inner) →
        lookupConv (convertFields kvs) k = some (convertIdFilter (Json.obj inner)))
  ∧ (∀ filter update, (patchDispatch filter update).1 = convertIdFilter filter
      ∧ (patchDispatch filter update).2 = update) := by
  refine ⟨?_, ?_, ?_, ?_⟩
  · intro kvs s hl hv
    rw [lookupConv_convertFields, hl]
    simp [convertEntry, hv]
  · intro kvs s hl hv
    rw [lookupConv_convertFields, hl]
    simp [convertEntry, hv]
  · intro kvs k inner hl
    rw [lookupConv_convertFields, hl]
    simp [convertEntry]
  · intro filter update
    exact ⟨rfl, rfl⟩

/-- Witness for the C4 theorem at concrete inputs: a valid hex string `_id`
is coerced, an invalid one is preserved, a nested object is recursed into,
and the PATCH update body passes through unchanged. -/
theorem convertIdFilter_coercion_contract_witness :
    lookupConv (convertFields [("_id", Json.str "507f1f77bcf86cd799439011")]) "_id"
      = some (ConvVal.oid "507f1f77bcf86cd799439011")
  ∧ lookupConv (convertFields [("_id", Json.str "not-an-id")]) "_id"
      = some (ConvVal.str "not-an-id")
  ∧ lookupConv (convertFields [("nested", Json.obj [("_id", Json.str "a")])]) "nested"
      = some (convertIdFilter (Json.obj [("_id", Json.str "a")]))
  ∧ (patchDispatch (Json.obj []) (Json.obj [("x", Json.num 1)])).2
      = Json.obj [("x", Json.num 1)] :=
  ⟨convertIdFilter_coercion_contract.1 _ "507f1f77bcf86cd799439011" rfl (by decide),
   convertIdFilter_coercion_contract.2.1 _ "not-an-id" rfl (by decide),
   convertIdFilter_coercion_contract.2.2.1 _ "nested" _ rfl,
   (convertIdFilter_coercion_contract.2.2.2 (Json.obj []) (Json.obj [("x", Json.num 1)])).2⟩

/-- Counterexample to C4 as stated: a valid 24-hex `_id` string inside the
*update body* of a PATCH request is dispatched as the original plain string —
the coercion the claim asserts (shown in the second conjunct as it is applied
to filters) never touches the update payload. -/
theorem patch_update_body_not_coerced :
    (patchDispatch (Json.obj [])
        (Json.obj [("_id", Json.str "507f1f77bcf86cd799439011")])).2
      = Json.obj [("_id", Json.str "507f1f77bcf86cd799439011")]
  ∧ convertIdFilter (Json.obj [("_id", Json.str "507f1f77bcf86cd799439011")])
      = ConvVal.obj [("_id", ConvVal.oid "507f1f77bcf86cd799439011")] := by
  constructor
  · rfl
  · have h1 : isValidObjectIdString "507f1f77bcf86cd799439011" = true := by decide
    simp [convertIdFilter, convertFields, h1]

theorem findDocuments_length_le (coll : List Json) (filter : Json → Bool)
    (options : FindOptions) (h0 : options.limit.getD 50 ≠ 0) :
    (findDocuments coll filter options).documents.length ≤ options.limit.getD 50 := by
  simp only [findDocuments]
  rw [if_neg h0]
  cases hs : options.sort <;> cases hp : options.projection <;>
    simp [List.length_take]

/-- C3: `findDocuments` returns at most `limit` documents (50 when the option
is unspecified, and any positive explicit limit; a driver `limit(0)` means
unbounded and is outside the options the spec's data model admits), and its
`total` is the count of all documents matching the filter alone, unchanged
under any variation of `limit` and `skip`. -/
theorem findDocuments_limit_and_total (coll : List Json) (filter : Json → Bool)
    (options : FindOptions) :
    (options.limit = none → (findDocuments coll filter options).documents.length ≤ 50)
  ∧ (∀ L, options.limit = some L → 0 < L →
      (findDocuments coll filter options).documents.length ≤ L)
  ∧ (findDocuments coll filter options).total = (coll.filter filter).length
  ∧ (∀ L S, (findDocuments coll filter
        { options with limit := L, skip := S }).total
      = (findDocuments coll filter options).total) := by
  refine ⟨?_, ?_, rfl, fun L S => rfl⟩
  · intro h
    have := findDocuments_length_le coll filter options (by rw [h]; decide)
    rwa [h] at this
  · intro L hL hpos
    have := findDocuments_length_le coll filter options (by rw [hL]; simpa using Nat.pos_iff_ne_zero.mp hpos)
    rwa [hL] at this

/-- Witness for the C3 theorem on a concrete two-document collection, with
default options, an explicit limit of 1, and a limit/skip variation. -/
theorem findDocuments_limit_and_total_witness :
    (findDocuments [Json.num 1, Json.num 2] (fun _ => true) {}).documents.length ≤ 50
  ∧ (findDocuments [Json.num 1, Json.num 2] (fun _ => true)
      { limit := some 1 }).documents.length ≤ 1
  ∧ (findDocuments [Json.num 1, Json.num 2] (fun _ => true) {}).total
      = ([Json.num 1, Json.num 2].filter (fun _ => true)).length
  ∧ (findDocuments [Json.num 1, Json.num 2] (fun _ => true)
        { ({} : FindOptions) with limit := some 1, skip := some 7 }).total
      = (findDocuments [Json.num 1, Json.num 2] (fun _ => true) {}).total :=
  ⟨(findDocuments_limit_and_total [Json.num 1, Json.num 2] (fun _ => true) {}).1 rfl,
   (findDocuments_limit_and_total [Json.num 1, Json.num 2] (fun _ => true)
      { limit := some 1 }).2.1 1 rfl (by decide),
   (findDocuments_limit_and_total [Json.num 1, Json.num 2] (fun _ => true) {}).2.2.1,
   (findDocuments_limit_and_total [Json.num 1, Json.num 2]
      (fun _ => true) {}).2.2.2 (some 1) (some 7)⟩

theorem lookupField_append {α : Type} (A B : List (String × α)) (k : String) :
    lookupField (A ++ B) k
      = match lookupField A k with
        | some v => some v
        | none => lookupField B k := by
  induction A with
  | nil => simp [lookupField]
  | cons kv rest ih =>
    obtain ⟨k', v⟩ := kv
    by_cases hk : k' = k
    · simp [lookupField, hk]
    · simp [lookupField, hk, ih]

theorem lookupField_map_overwrite (doc : DocObj) (us : List (String × Json))
    (k : String) :
    lookupField (doc.map (fun kv =>
        match lookupField us kv.1 with
        | some w => (kv.1, w)
        | none => kv)) k
      = (lookupField doc k).map (fun v =>
          match lookupField us k with
          | some w => w
          | none => v) := by
  induction doc with
  | nil => simp [lookupField]
  | cons kv rest ih =>
    obtain ⟨k', v⟩ := kv
    by_cases hk : k' = k
    · subst hk
      cases hu : lookupField us k' <;> simp [lookupField, hu]
    · cases hu : lookupField us k' <;> simp [lookupField, hu, hk, ih]

theorem lookupField_filter_keep (us : List (String × Json))
    (q : String × Json → Bool) (k : String) (hq : ∀ v, q (k, v) = true) :
    lookupField (us.filter q) k = lookupField us k := by
  induction us with
  | nil => simp [lookupField]
  | cons kv rest ih =>
    obtain ⟨k', v⟩ := kv
    by_cases hk : k' = k
    · subst hk
      simp [List.filter, hq v, lookupField, ih]
    · cases hqv : q (k', v) <;> simp [List.filter, hqv, lookupField, hk, ih]

theorem lookupField_applySet_named (doc : DocObj) (us : List (String × Json))
    (k : String) (w : Json) (hk : lookupField us k = some w) :
    lookupField (applySet doc (Json.obj us)) k = some w := by
  simp only [applySet]
  rw [lookupField_append, lookupField_map_overwrite]
  cases hd : lookupField doc k with
  | some v => simp [hk]
  | none =>
    have : lookupField (us.filter (fun kv => (lookupField doc kv.1).isNone)) k
        = lookupField us k :=
      lookupField_filter_keep us _ k (fun v => by simp [hd])
    simp [this, hk]

theorem lookupField_applySet_unnamed (doc : DocObj) (us : List (String × Json))
    (k : String) (hk : lookupField us k = none) :
    lookupField (applySet doc (Json.obj us)) k = lookupField doc k := by
  simp only [applySet]
  rw [lookupField_append, lookupField_map_overwrite]
  cases hd : lookupField doc k with
  | some v => simp [hk]
  | none =>
    have : lookupField (us.filter (fun kv => (lookupField doc kv.1).isNone)) k
        = lookupField us k :=
      lookupField_filter_keep us _ k (fun v => by simp [hd])
    simp [this, hk]

theorem updateOneSem_count_le (docs : List DocObj) (sel : DocObj → Bool)
    (update : Json) : (updateOneSem docs sel update).2 ≤ 1 := by
  induction docs with
  | nil => simp [updateOneSem]
  | cons d rest ih =>
    by_cases hd : sel d <;> simp [updateOneSem, hd, ih]

theorem updateOneSem_length (docs : List DocObj) (sel : DocObj → Bool)
    (update : Json) : (updateOneSem docs sel update).1.length = docs.length := by
  induction docs with
  | nil => simp [updateOneSem]
  | cons d rest ih =>
    by_cases hd : sel d <;> simp [updateOneSem, hd, ih]

theorem deleteOneSem_count_le (docs : List DocObj) (sel : DocObj → Bool) :
    (deleteOneSem docs sel).2 ≤ 1 := by
  induction docs with
  | nil => simp [deleteOneSem]
  | cons d rest ih =>
    by_cases hd : sel d <;> simp [deleteOneSem, hd, ih]

theorem deleteOneSem_length (docs : List DocObj) (sel : DocObj → Bool) :
    (deleteOneSem docs sel).1.length + (deleteOneSem docs sel).2 = docs.length := by
  induction docs with
  | nil => simp [deleteOneSem]
  | cons d rest ih =>
    by_cases hd : sel d
    · simp [deleteOneSem, hd]
    · simp [deleteOneSem, hd]
      omega

/-- C5: `updateDocument` dispatches a single-document `updateOne` whose
payload is the field-level `{$set: update}` wrapper, and `deleteDocument`
dispatches a single-document `deleteOne`; `$set` overwrites exactly the named
fields and preserves every other field (never document replacement); both
operations affect at most one document — first-match semantics — including
under the match-everything empty predicate. -/
theorem single_document_write_contract (filter : ConvVal) (update : Json)
    (docs : List DocObj) (sel : DocObj → Bool) :
    updateDocumentCall filter update
      = DriverWrite.updateOne filter (UpdatePayload.set update)
  ∧ deleteDocumentCall filter = DriverWrite.deleteOne filter
  ∧ (∀ doc us k w, lookupField us k = some w →
      lookupField (applySet doc (Json.obj us)) k = some w)
  ∧ (∀ doc us k, lookupField us k = none →
      lookupField (applySet doc (Json.obj us)) k = lookupField doc k)
  ∧ (updateOneSem docs sel update).2 ≤ 1
  ∧ (updateOneSem docs sel update).1.length = docs.length
  ∧ (deleteOneSem docs sel).2 ≤ 1
  ∧ (deleteOneSem docs sel).1.length + (deleteOneSem docs sel).2 = docs.length
  ∧ (∀ d rest, updateOneSem (d :: rest) (fun _ => true) update
      = (applySet d update :: rest, 1))
  ∧ (∀ d rest, deleteOneSem (d :: rest) (fun _ => true) = (rest, 1)) :=
  ⟨rfl, rfl,
   fun doc us k w hk => lookupField_applySet_named doc us k w hk,
   fun doc us k hk => lookupField_applySet_unnamed doc us k hk,
   updateOneSem_count_le docs sel update,
   updateOneSem_length docs sel update,
   deleteOneSem_count_le docs sel,
   deleteOneSem_length docs sel,
   fun d rest => by simp [updateOneSem],
   fun d rest => by simp [deleteOneSem]⟩

/-- Witness for the C5 theorem: a two-document collection, a `$set` update
touching one named field, and the empty (match-all) predicate. -/
theorem single_document_write_contract_witness :
    lookupField (applySet [("a", Json.num 1)]
        (Json.obj [("b", Json.num 9)])) "b" = some (Json.num 9)
  ∧ lookupField (applySet [("a", Json.num 1)]
        (Json.obj [("b", Json.num 9)])) "a" = lookupField [("a", Json.num 1)] "a"
  ∧ (updateOneSem [[("a", Json.num 1)], [("a", Json.num 2)]]
        (fun _ => true) (Json.obj [("b", Json.num 9)])).2 ≤ 1
  ∧ (deleteOneSem [[("a", Json.num 1)], [("a", Json.num 2)]] (fun _ => true)).2 ≤ 1 :=
  ⟨(single_document_write_contract ConvVal.null (Json.obj [("b", Json.num 9)])
      [] (fun _ => true)).2.2.1 [("a", Json.num 1)] [("b", Json.num 9)] "b"
      (Json.num 9) rfl,
   (single_document_write_contract ConvVal.null (Json.obj [("b", Json.num 9)])
      [] (fun _ => true)).2.2.2.1 [("a", Json.num 1)] [("b", Json.num 9)] "a" rfl,
   (single_document_write_contract ConvVal.null (Json.obj [("b", Json.num 9)])
      [[("a", Json.num 1)], [("a", Json.num 2)]] (fun _ => true)).2.2.2.2.1,
   (single_document_write_contract ConvVal.null (Json.obj [("b", Json.num 9)])
      [[("a", Json.num 1)], [("a", Json.num 2)]] (fun _ => true)).2.2.2.2.2.2.1⟩

theorem lookupCache_setCache (cache : List (String × Nat)) (uri : String)
    (cid : Nat) : lookupCache (setCache cache uri cid) uri = some cid := by
  induction cache with
  | nil => simp [setCache, lookupCache, lookupField]
  | cons kv rest ih =>
    obtain ⟨k, v⟩ := kv
    by_cases hk : k = uri
    · simp [setCache, hk, lookupCache, lookupField]
    · simpa [setCache, hk, lookupCache, lookupField] using ih

theorem lookupCache_eraseCache (cache : List (String × Nat)) (uri : String) :
    lookupCache (eraseCache cache uri) uri = none := by
  induction cache with
  | nil => simp [eraseCache, lookupCache, lookupField]
  | cons kv rest ih =>
    obtain ⟨k, v⟩ := kv
    by_cases hk : k = uri
    · simpa [eraseCache, hk, lookupCache, lookupField] using ih
    · simpa [eraseCache, List.filter, hk, lookupCache, lookupField] using ih

/-- C2: the `getMongoClient` acquire contract.  A cached client whose ping
succeeds is returned with no state change; on a cache miss — or after a
failed ping evicts the entry — a new client is constructed with
`{maxPoolSize: 10, minPoolSize: 2, serverSelectionTimeoutMS: 5000}`,
connected, cached under the URI and returned; a failed connection attempt
propagates as an error and leaves no cache entry for the URI. -/
theorem getMongoClient_contract (s : RegState) (uri : String)
    (pingOk connectOk : Bool) :
    (∀ cid, lookupCache s.cache uri = some cid → pingOk = true →
        getMongoClient s uri pingOk connectOk = (s, Except.ok cid))
  ∧ ((lookupCache s.cache uri = none ∨ pingOk = false) → connectOk = true →
        (getMongoClient s uri pingOk connectOk).2 = Except.ok s.nextId
      ∧ (getMongoClient s uri pingOk connectOk).1.clients
          = s.clients ++ [⟨s.nextId, uri, some mongoClientOptions, true, false⟩]
      ∧ lookupCache (getMongoClient s uri pingOk connectOk).1.cache uri
          = some s.nextId)
  ∧ ((lookupCache s.cache uri = none ∨ pingOk = false) → connectOk = false →
        (getMongoClient s uri pingOk connectOk).2 = Except.error "connect failed"
      ∧ (getMongoClient s uri pingOk connectOk).1.clients
          = s.clients ++ [⟨s.nextId, uri, some mongoClientOptions, false, false⟩]
      ∧ lookupCache (getMongoClient s uri pingOk connectOk).1.cache uri = none) := by
  refine ⟨?_, ?_, ?_⟩
  · intro cid hc hp
    simp [getMongoClient, hc, hp]
  · intro hmiss hconn
    subst hconn
    cases hc : lookupCache s.cache uri with
    | none =>
      simp [getMongoClient, hc, getMongoClientCreate, newClientAndConnect,
        lookupCache_setCache]
    | some cid =>
      rcases hmiss with hnone | hping
      · rw [hc] at hnone; cases hnone
      · subst hping
        simp [getMongoClient, hc, getMongoClientCreate, newClientAndConnect,
          lookupCache_setCache]
  · intro hmiss hconn
    subst hconn
    cases hc : lookupCache s.cache uri with
    | none =>
      simp [getMongoClient, hc, getMongoClientCreate, newClientAndConnect]
    | some cid =>
      rcases hmiss with hnone | hping
      · rw [hc] at hnone; cases hnone
      · subst hping
        simp [getMongoClient, hc, getMongoClientCreate, newClientAndConnect,
          lookupCache_eraseCache]

/-- Witness for the C2 theorem: a cache hit with a healthy ping returns the
cached client unchanged; a first use from the empty registry creates,
connects and caches client 0; a first use against an unreachable host errors
and caches nothing. -/
theorem getMongoClient_contract_witness :
    getMongoClient
        ⟨[("mongodb://h", 0)],
         [⟨0, "mongodb://h", some mongoClientOptions, true, false⟩], 1⟩
        "mongodb://h" true true
      = (⟨[("mongodb://h", 0)],
          [⟨0, "mongodb://h", some mongoClientOptions, true, false⟩], 1⟩,
         Except.ok 0)
  ∧ (getMongoClient RegState.init "mongodb://h" true true).2 = Except.ok 0
  ∧ lookupCache (getMongoClient RegState.init "mongodb://h" true true).1.cache
      "mongodb://h" = some 0
  ∧ (getMongoClient RegState.init "mongodb://h" true false).2
      = Except.error "connect failed"
  ∧ lookupCache (getMongoClient RegState.init "mongodb://h" true false).1.cache
      "mongodb://h" = none :=
  ⟨(getMongoClient_contract
      ⟨[("mongodb://h", 0)],
       [⟨0, "mongodb://h", some mongoClientOptions, true, false⟩], 1⟩
      "mongodb://h" true true).1 0 rfl rfl,
   ((getMongoClient_contract RegState.init "mongodb://h" true true).2.1
      (Or.inl rfl) rfl).1,
   ((getMongoClient_contract RegState.init "mongodb://h" true true).2.1
      (Or.inl rfl) rfl).2.2,
   ((getMongoClient_contract RegState.init "mongodb://h" true false).2.2
      (Or.inl rfl) rfl).1,
   ((getMongoClient_contract RegState.init "mongodb://h" true false).2.2
      (Or.inl rfl) rfl).2.2⟩

/-- C1 (code evaluated at the failing inputs): with a live client cached for
`"mongodb://h"` (first conjuncts), the manage-collection POST handler's
`new MongoClient(uri)` + `connect()` yields a *second* live client for the
same URI while the operation is in flight (third conjunct).  Also, the cache
check of `getMongoClient` happens before the `await client.connect()`
suspension point and the cache is only written after it, so two concurrent
first-use acquires both see the miss (fourth conjunct evaluates the check on
the shared initial state) and each runs the creation path: again two live
clients for one URI (fifth conjunct). -/
theorem duplicate_live_clients_trace :
    lookupCache ((getMongoClient RegState.init "mongodb://h" true true).1).cache
      "mongodb://h" = some 0
  ∧ liveCount (getMongoClient RegState.init "mongodb://h" true true).1
      "mongodb://h" = 1
  ∧ liveCount
      (manageCollectionConnect
        (getMongoClient RegState.init "mongodb://h" true true).1
        "mongodb://h" true).1 "mongodb://h" = 2
  ∧ lookupCache RegState.init.cache "mongodb://h" = none
  ∧ liveCount
      (getMongoClientCreate
        (getMongoClientCreate RegState.init "mongodb://h" true).1
        "mongodb://h" true).1 "mongodb://h" = 2 := by
  decide

/-- Counterexample to C8 as stated: after a failed liveness probe the cached
client (id 0) is evicted and replaced by client 1, but its record still has
`closed := false` — the catch block runs only `clientCache.delete(uri)`,
never `client.close()`. -/
theorem evicted_client_not_closed :
    (findClient
      (getMongoClient (getMongoClient RegState.init "mongodb://h" true true).1
        "mongodb://h" false true).1.clients 0).map ClientRec.closed = some false
  ∧ lookupCache
      (getMongoClient (getMongoClient RegState.init "mongodb://h" true true).1
        "mongodb://h" false true).1.cache "mongodb://h" = some 1 := by
  decide

/-- C8 (amended): `getMongoClient` closes nothing — every pre-existing client
record survives an acquire verbatim, so the handle evicted after a failed
probe is merely dropped from the cache, still unclosed; a cached handle is
closed exactly by `closeMongoClient`, which marks it closed and evicts its
entry, and which is a no-op for a URI with no cached handle. -/
theorem registry_close_discipline (s : RegState) (uri : String)
    (pingOk connectOk : Bool) :
    (∃ tail, (getMongoClient s uri pingOk connectOk).1.clients
        = s.clients ++ tail)
  ∧ (∀ cid, lookupCache s.cache uri = some cid →
      closeMongoClient s uri
        = ⟨eraseCache s.cache uri, markClosed s.clients cid, s.nextId⟩)
  ∧ (lookupCache s.cache uri = none → closeMongoClient s uri = s) := by
  refine ⟨?_, ?_, ?_⟩
  · cases hc : lookupCache s.cache uri with
    | some cid =>
      by_cases hp : pingOk
      · exact ⟨[], by simp [getMongoClient, hc, hp]⟩
      · refine ⟨[⟨s.nextId, uri, some mongoClientOptions, connectOk, false⟩], ?_⟩
        cases connectOk <;>
          simp [getMongoClient, hc, hp, getMongoClientCreate, newClientAndConnect]
    | none =>
      refine ⟨[⟨s.nextId, uri, some mongoClientOptions, connectOk, false⟩], ?_⟩
      cases connectOk <;>
        simp [getMongoClient, hc, getMongoClientCreate, newClientAndConnect]
  · intro cid hc
    simp [closeMongoClient, hc]
  · intro hc
    simp [closeMongoClient, hc]

/-- Witness for the C8 theorem: closing a cached client marks it closed and
evicts it; closing an unknown URI changes nothing; an acquire only appends. -/
theorem registry_close_discipline_witness :
    closeMongoClient
        ⟨[("mongodb://h", 0)],
         [⟨0, "mongodb://h", some mongoClientOptions, true, false⟩], 1⟩
        "mongodb://h"
      = ⟨eraseCache [("mongodb://h", 0)] "mongodb://h",
         markClosed [⟨0, "mongodb://h", some mongoClientOptions, true, false⟩] 0, 1⟩
  ∧ closeMongoClient RegState.init "mongodb://h" = RegState.init
  ∧ (∃ tail, (getMongoClient RegState.init "mongodb://h" true true).1.clients
      = RegState.init.clients ++ tail) :=
  ⟨(registry_close_discipline
      ⟨[("mongodb://h", 0)],
       [⟨0, "mongodb://h", some mongoClientOptions, true, false⟩], 1⟩
      "mongodb://h" true true).2.1 0 rfl,
   (registry_close_discipline RegState.init "mongodb://h" true true).2.2 rfl,
   (registry_close_discipline RegState.init "mongodb://h" true true).1⟩

theorem documentsPOST_normalized (body : Except String Json)
    (findSvc : Json → ConvVal → Json → Except String (List Json × Nat)) :
    isNormalizedResponse (documentsPOST body findSvc) := by
  unfold documentsPOST
  cases body with
  | error e => exact Or.inr ⟨_, _, rfl⟩
  | ok j =>
    repeat' (first | split | dsimp only)
    all_goals first
      | exact Or.inr ⟨_, _, rfl⟩
      | exact Or.inl ⟨_, rfl⟩

theorem documentsPUT_normalized (body : Except String Json)
    (insSvc : Json → Json → Except String Json) :
    isNormalizedResponse (documentsPUT body insSvc) := by
  unfold documentsPUT
  cases body with
  | error e => exact Or.inr ⟨_, _, rfl⟩
  | ok j =>
    repeat' (first | split | dsimp only)
    all_goals first
      | exact Or.inr ⟨_, _, rfl⟩
      | exact Or.inl ⟨_, rfl⟩

theorem documentsPATCH_normalized (body : Except String Json)
    (updSvc : Json → ConvVal → Json → Except String Nat) :
    isNormalizedResponse (documentsPATCH body updSvc) := by
  unfold documentsPATCH
  cases body with
  | error e => exact Or.inr ⟨_, _, rfl⟩
  | ok j =>
    repeat' (first | split | dsimp only)
    all_goals first
      | exact Or.inr ⟨_, _, rfl⟩
      | exact Or.inl ⟨_, rfl⟩

theorem documentsDELETE_normalized (body : Except String Json)
    (delSvc : Json → ConvVal → Except String Nat) :
    isNormalizedResponse (documentsDELETE body delSvc) := by
  unfold documentsDELETE
  cases body with
  | error e => exact Or.inr ⟨_, _, rfl⟩
  | ok j =>
    repeat' (first | split | dsimp only)
    all_goals first
      | exact Or.inr ⟨_, _, rfl⟩
      | exact Or.inl ⟨_, rfl⟩

theorem aggregationPOST_normalized (body : Except String Json)
    (runAgg : Json → List Json → Except String (List Json)) (t0 t1 : Nat) :
    isNormalizedResponse (aggregationPOST body runAgg t0 t1) := by
  unfold aggregationPOST executeAggregation
  cases body with
  | error e => exact Or.inr ⟨_, _, rfl⟩
  | ok j =>
    repeat' (first | split | dsimp only)
    all_goals first
      | exact Or.inr ⟨_, _, rfl⟩
      | exact Or.inl ⟨_, rfl⟩

theorem manageCollectionPOSTResp_normalized (body : Except String Json)
    (connect op : Except String Unit) :
    isNormalizedResponse (manageCollectionPOSTResp body connect op) := by
  unfold manageCollectionPOSTResp
  cases body with
  | error e => exact Or.inr ⟨_, _, rfl⟩
  | ok j =>
    repeat' (first | split | dsimp only)
    all_goals first
      | exact Or.inr ⟨_, _, rfl⟩
      | exact Or.inl ⟨_, rfl⟩

theorem manageCollectionDELETEResp_normalized (body : Except String Json)
    (connect op : Except String Unit) :
    isNormalizedResponse (manageCollectionDELETEResp body connect op) := by
  unfold manageCollectionDELETEResp
  cases body with
  | error e => exact Or.inr ⟨_, _, rfl⟩
  | ok j =>
    repeat' (first | split | dsimp only)
    all_goals first
      | exact Or.inr ⟨_, _, rfl⟩
      | exact Or.inl ⟨_, rfl⟩

/-- C6: every modelled gateway handler is total into `HttpResponse` — no
exception escapes — and always replies in the normalized
`{success: true, data}` / `{success: false, error: message}` shape, for every
request body (including unparsable and null bodies) and every store-layer
behavior; a store-layer error is converted into the failure shape carrying
the thrown error's message (final conjunct, shown for the find handler). -/
theorem gateway_normalized_responses (body : Except String Json) (j : Json)
    (e : String)
    (findSvc : Json → ConvVal → Json → Except String (List Json × Nat))
    (insSvc : Json → Json → Except String Json)
    (updSvc : Json → ConvVal → Json → Except String Nat)
    (delSvc : Json → ConvVal → Except String Nat)
    (aggSvc : Json → List Json → Except String (List Json))
    (t0 t1 : Nat) (connect op : Except String Unit) :
    isNormalizedResponse (documentsPOST body findSvc)
  ∧ isNormalizedResponse (documentsPUT body insSvc)
  ∧ isNormalizedResponse (documentsPATCH body updSvc)
  ∧ isNormalizedResponse (documentsDELETE body delSvc)
  ∧ isNormalizedResponse (aggregationPOST body aggSvc t0 t1)
  ∧ isNormalizedResponse (manageCollectionPOSTResp body connect op)
  ∧ isNormalizedResponse (manageCollectionDELETEResp body connect op)
  ∧ (isNullJson j = false →
      (!(present (getField j "uri")) || !(present (getField j "database"))
        || !(present (getField j "collection"))) = false →
      documentsPOST (Except.ok j) (fun _ _ _ => Except.error e)
        = jsonError 500 e) := by
  refine ⟨documentsPOST_normalized body findSvc,
    documentsPUT_normalized body insSvc,
    documentsPATCH_normalized body updSvc,
    documentsDELETE_normalized body delSvc,
    aggregationPOST_normalized body aggSvc t0 t1,
    manageCollectionPOSTResp_normalized body connect op,
    manageCollectionDELETEResp_normalized body connect op, ?_⟩
  intro hnull hfields
  simp [documentsPOST, hnull, hfields]

/-- Witness for the C6 theorem: a well-formed find request whose store call
throws is answered with the 500 failure shape carrying the message. -/
theorem gateway_normalized_responses_witness :
    documentsPOST
        (Except.ok (Json.obj
          [("uri", Json.str "mongodb://h"), ("database", Json.str "d"),
           ("collection", Json.str "c")]))
        (fun _ _ _ => Except.error "boom")
      = jsonError 500 "boom" :=
  (gateway_normalized_responses (Except.ok Json.null)
    (Json.obj
      [("uri", Json.str "mongodb://h"), ("database", Json.str "d"),
       ("collection", Json.str "c")])
    "boom" (fun _ _ _ => Except.ok ([], 0)) (fun _ _ => Except.ok Json.null)
    (fun _ _ _ => Except.ok 0) (fun _ _ => Except.ok 0)
    (fun _ _ => Except.ok []) 0 0 (Except.ok ()) (Except.ok ())).2.2.2.2.2.2.2
    rfl rfl

/-- C7 (amended): a request missing any required field is rejected with the
400 validation response before any store call — the response is independent
of the store's behavior; the `mongodb://` / `mongodb+srv://` scheme check,
however, is not performed by the gateway: it lives in `validateMongoUri`,
which only the UI's connection form invokes, and which accepts exactly
strings carrying one of the two schemes (with a nonempty host part). -/
theorem gateway_validation_contract (j : Json)
    (svc svc' : Json → ConvVal → Json → Except String (List Json × Nat)) :
    (isNullJson j = false →
      (!(present (getField j "uri")) || !(present (getField j "database"))
        || !(present (getField j "collection"))) = true →
        documentsPOST (Except.ok j) svc
          = jsonError 400 "URI, database, and collection are required"
      ∧ documentsPOST (Except.ok j) svc = documentsPOST (Except.ok j) svc')
  ∧ (∀ uri : String, (validateMongoUri uri).valid = true →
      (mongoProto.isPrefixOf uri.data || mongoSrvProto.isPrefixOf uri.data) = true)
  ∧ (∀ uri : String, uri.data.all Char.isWhitespace = false →
      (mongoProto.isPrefixOf uri.data || mongoSrvProto.isPrefixOf uri.data) = false →
      validateMongoUri uri
        = ⟨false, some "URI must start with mongodb:// or mongodb+srv://"⟩) := by
  refine ⟨?_, ?_, ?_⟩
  · intro hnull hfields
    constructor <;> simp [documentsPOST, hnull, hfields]
  · intro uri hv
    by_cases h1 : uri.data.all Char.isWhitespace
    · simp [validateMongoUri, h1] at hv
    · by_cases h2 : (mongoProto.isPrefixOf uri.data
          || mongoSrvProto.isPrefixOf uri.data) = true
      · exact h2
      · rw [Bool.not_eq_true] at h2
        simp [validateMongoUri, h1, h2] at hv
  · intro uri h1 h2
    simp [validateMongoUri, h1, h2]

/-- Witness for the C7 theorem: a body with a missing collection field is
rejected with the 400 message under two different store behaviors, and
`validateMongoUri` rejects a scheme-less string. -/
theorem gateway_validation_contract_witness :
    documentsPOST
        (Except.ok (Json.obj
          [("uri", Json.str "mongodb://h"), ("database", Json.str "d")]))
        (fun _ _ _ => Except.ok ([], 0))
      = jsonError 400 "URI, database, and collection are required"
  ∧ (mongoProto.isPrefixOf "mongodb://h".data
      || mongoSrvProto.isPrefixOf "mongodb://h".data) = true
  ∧ validateMongoUri "http://example.com"
      = ⟨false, some "URI must start with mongodb:// or mongodb+srv://"⟩ :=
  ⟨((gateway_validation_contract
      (Json.obj [("uri", Json.str "mongodb://h"), ("database", Json.str "d")])
      (fun _ _ _ => Except.ok ([], 0))
      (fun _ _ _ => Except.error "x")).1 rfl rfl).1,
   (gateway_validation_contract (Json.obj [])
      (fun _ _ _ => Except.ok ([], 0)) (fun _ _ _ => Except.ok ([], 0))).2.1
      "mongodb://h" (by decide),
   (gateway_validation_contract (Json.obj [])
      (fun _ _ _ => Except.ok ([], 0)) (fun _ _ _ => Except.ok ([], 0))).2.2
      "http://example.com" (by decide) (by decide)⟩

/-- Counterexample to C7 as stated: a request whose connection string has a
non-mongodb scheme passes the gateway's checks (which test only that the
required fields are truthy) and reaches the store call — the response tracks
the store outcome (200 on success, 500 on failure) instead of being a
400-equivalent validation rejection issued before any store call. -/
theorem malformed_scheme_reaches_store :
    (documentsPOST (Except.ok (Json.obj
        [("uri", Json.str "http://example.com"), ("database", Json.str "d"),
         ("collection", Json.str "c")]))
      (fun _ _ _ => Except.ok ([], 0))).status = 200
  ∧ (documentsPOST (Except.ok (Json.obj
        [("uri", Json.str "http://example.com"), ("database", Json.str "d"),
         ("collection", Json.str "c")]))
      (fun _ _ _ => Except.error "getaddrinfo ENOTFOUND example.com")).status = 500
  ∧ (validateMongoUri "http://example.com").valid = false :=
  ⟨rfl, rfl, by decide⟩

/-- C9 (amended): the aggregation route rejects with a 400 validation error —
issued before any store call, so independently of the store's behavior — both
a missing (falsy) pipeline and a pipeline value that is not an array; for an
array pipeline it dispatches the stages exactly as given and, on success,
returns the ordered results together with the gateway-measured wall-clock
time under the field `executionTime` (the source's name for it); a store
failure becomes the 500 failure shape with the store's message. -/
theorem aggregation_route_contract (j : Json) (t0 t1 : Nat)
    (runAgg runAgg' : Json → List Json → Except String (List Json)) :
    (isNullJson j = false →
      (!(present (getField j "uri")) || !(present (getField j "database"))
        || !(present (getField j "collection"))
        || !(present (getField j "pipeline"))) = true →
        aggregationPOST (Except.ok j) runAgg t0 t1
          = jsonError 400 "URI, database, collection, and pipeline are required"
      ∧ aggregationPOST (Except.ok j) runAgg t0 t1
          = aggregationPOST (Except.ok j) runAgg' t0 t1)
  ∧ (isNullJson j = false →
      (!(present (getField j "uri")) || !(present (getField j "database"))
        || !(present (getField j "collection"))
        || !(present (getField j "pipeline"))) = false →
      isArrayJson ((getField j "pipeline").getD Json.null) = false →
        aggregationPOST (Except.ok j) runAgg t0 t1
          = jsonError 400 "Pipeline must be an array"
      ∧ aggregationPOST (Except.ok j) runAgg t0 t1
          = aggregationPOST (Except.ok j) runAgg' t0 t1)
  ∧ (∀ stages results, isNullJson j = false →
      (!(present (getField j "uri")) || !(present (getField j "database"))
        || !(present (getField j "collection"))
        || !(present (getField j "pipeline"))) = false →
      getField j "pipeline" = some (Json.arr stages) →
      runAgg ((getField j "uri").getD Json.null) stages = Except.ok results →
      aggregationPOST (Except.ok j) runAgg t0 t1
        = jsonSuccess (Json.obj
            [("results", Json.arr results),
             ("executionTime", Json.num (Int.ofNat (t1 - t0)))]))
  ∧ (∀ stages e, isNullJson j = false →
      (!(present (getField j "uri")) || !(present (getField j "database"))
        || !(present (getField j "collection"))
        || !(present (getField j "pipeline"))) = false →
      getField j "pipeline" = some (Json.arr stages) →
      runAgg ((getField j "uri").getD Json.null) stages = Except.error e →
      aggregationPOST (Except.ok j) runAgg t0 t1 = jsonError 500 e) := by
  refine ⟨?_, ?_, ?_, ?_⟩
  · intro hnull hfields
    constructor <;> simp [aggregationPOST, hnull, hfields]
  · intro hnull hfields hna
    cases hp : (getField j "pipeline").getD Json.null
    case arr stages =>
      rw [hp] at hna
      simp [isArrayJson] at hna
    all_goals constructor <;> simp [aggregationPOST, hnull, hfields, hp]
  · intro stages results hnull hfields hp hrun
    simp at hfields
    obtain ⟨⟨⟨hu, hd⟩, hc⟩, hpip⟩ := hfields
    have harr : present (some (Json.arr stages)) = true := rfl
    simp [aggregationPOST, executeAggregation, hnull, hu, hd, hc, hpip, hp, hrun, harr]
  · intro stages e hnull hfields hp hrun
    simp at hfields
    obtain ⟨⟨⟨hu, hd⟩, hc⟩, hpip⟩ := hfields
    have harr : present (some (Json.arr stages)) = true := rfl
    simp [aggregationPOST, executeAggregation, hnull, hu, hd, hc, hpip, hp, hrun, harr]

/-- Witness for the C9 theorem: a string-valued pipeline is rejected with the
array-validation message, and an array pipeline with a succeeding store
yields the results plus `executionTime` computed from the two clock
readings. -/
theorem aggregation_route_contract_witness :
    aggregationPOST (Except.ok (Json.obj
        [("uri", Json.str "mongodb://h"), ("database", Json.str "d"),
         ("collection", Json.str "c"), ("pipeline", Json.str "oops")]))
      (fun _ _ => Except.ok []) 0 5
      = jsonError 400 "Pipeline must be an array"
  ∧ aggregationPOST (Except.ok (Json.obj
        [("uri", Json.str "mongodb://h"), ("database", Json.str "d"),
         ("collection", Json.str "c"), ("pipeline", Json.arr [])]))
      (fun _ _ => Except.ok [Json.num 3]) 10 14
      = jsonSuccess (Json.obj
          [("results", Json.arr [Json.num 3]),
           ("executionTime", Json.num (Int.ofNat 4))]) :=
  ⟨((aggregation_route_contract (Json.obj
      [("uri", Json.str "mongodb://h"), ("database", Json.str "d"),
       ("collection", Json.str "c"), ("pipeline", Json.str "oops")]) 0 5
      (fun _ _ => Except.ok []) (fun _ _ => Except.ok [])).2.1
      rfl rfl rfl).1,
   (aggregation_route_contract (Json.obj
      [("uri", Json.str "mongodb://h"), ("database", Json.str "d"),
       ("collection", Json.str "c"), ("pipeline", Json.arr [])]) 10 14
      (fun _ _ => Except.ok [Json.num 3])
      (fun _ _ => Except.ok [Json.num 3])).2.2.1
      [] [Json.num 3] rfl rfl rfl rfl⟩

/-- Counterexample to C9 as stated: the success payload of a pipeline run
carries the elapsed wall time under the field `executionTime`; the field
`executionTimeMs` the claim names does not exist in the response. -/
theorem aggregation_executionTime_field_name :
    (aggregationPOST (Except.ok (Json.obj
        [("uri", Json.str "mongodb://h"), ("database", Json.str "d"),
         ("collection", Json.str "c"),
         ("pipeline", Json.arr [Json.obj [("$match", Json.obj [])]])]))
      (fun _ _ => Except.ok [Json.obj [("ok", Json.num 1)]]) 100 107).status = 200
  ∧ getField ((getField (aggregationPOST (Except.ok (Json.obj
        [("uri", Json.str "mongodb://h"), ("database", Json.str "d"),
         ("collection", Json.str "c"),
         ("pipeline", Json.arr [Json.obj [("$match", Json.obj [])]])]))
      (fun _ _ => Except.ok [Json.obj [("ok", Json.num 1)]]) 100 107).body
        "data").getD Json.null) "executionTimeMs" = none
  ∧ getField ((getField (aggregationPOST (Except.ok (Json.obj
        [("uri", Json.str "mongodb://h"), ("database", Json.str "d"),
         ("collection", Json.str "c"),
         ("pipeline", Json.arr [Json.obj [("$match", Json.obj [])]])]))
      (fun _ _ => Except.ok [Json.obj [("ok", Json.num 1)]]) 100 107).body
        "data").getD Json.null) "executionTime" = some (Json.num 7)
  ∧ getField ((getField (aggregationPOST (Except.ok (Json.obj
        [("uri", Json.str "mongodb://h"), ("database", Json.str "d"),
         ("collection", Json.str "c"),
         ("pipeline", Json.arr [Json.obj [("$match", Json.obj [])]])]))
      (fun _ _ => Except.ok [Json.obj [("ok", Json.num 1)]]) 100 107).body
        "data").getD Json.null) "results"
      = some (Json.arr [Json.obj [("ok", Json.num 1)]]) :=
  ⟨rfl, rfl, rfl, rfl⟩

theorem coerceIdField_extends (h : Heap) (fields : List (String × JsVal)) :
    ∃ d, (coerceIdField h fields).1 = h ++ d := by
  cases hl : lookupField fields "_id" with
  | none =>
    refine ⟨[], ?_⟩
    simp [coerceIdField, hl]
  | some v =>
    cases v with
    | ref a =>
      refine ⟨[], ?_⟩
      simp [coerceIdField, hl]
    | prim p =>
      cases p with
      | str s =>
        by_cases hv : isValidObjectIdString s
        · refine ⟨[⟨HKind.objectId s, []⟩], ?_⟩
          simp [coerceIdField, hl, hv, Heap.alloc]
        · refine ⟨[], ?_⟩
          simp [coerceIdField, hl, hv]
      | null =>
        refine ⟨[], ?_⟩
        simp [coerceIdField, hl]
      | undef =>
        refine ⟨[], ?_⟩
        simp [coerceIdField, hl]
      | bool b =>
        refine ⟨[], ?_⟩
        simp [coerceIdField, hl]
      | num n =>
        refine ⟨[], ?_⟩
        simp [coerceIdField, hl]

theorem convFieldsWith_extends
    (recur : Heap → JsVal → Option (Heap × JsVal))
    (hrec : ∀ h v h' v', recur h v = some (h', v') → ∃ d, h' = h ++ d) :
    ∀ (l : List (String × JsVal)) (h h' : Heap) (l' : List (String × JsVal)),
      convFieldsWith recur h l = some (h', l') → ∃ d, h' = h ++ d := by
  intro l
  induction l with
  | nil =>
    intro h h' l' hEq
    simp only [convFieldsWith] at hEq
    cases hEq
    exact ⟨[], by simp⟩
  | cons kv rest ih =>
    intro h h' l' hEq
    obtain ⟨k, v⟩ := kv
    cases v with
    | prim p =>
      cases hr : convFieldsWith recur h rest with
      | none =>
        simp only [convFieldsWith, hr] at hEq
        exact Option.noConfusion hEq
      | some pr =>
        obtain ⟨h2, rest2⟩ := pr
        simp only [convFieldsWith, hr] at hEq
        cases hEq
        exact ih _ _ _ hr
    | ref a =>
      cases hn : h.getNode a with
      | none =>
        simp only [convFieldsWith, hn] at hEq
        exact Option.noConfusion hEq
      | some node =>
        cases hk : node.kind with
        | objectId s =>
          cases hr : convFieldsWith recur h rest with
          | none =>
            simp only [convFieldsWith, hn, hk, hr] at hEq
            exact Option.noConfusion hEq
          | some pr =>
            obtain ⟨h2, rest2⟩ := pr
            simp only [convFieldsWith, hn, hk, hr] at hEq
            cases hEq
            exact ih _ _ _ hr
        | plainObj =>
          cases hr1 : recur h (JsVal.ref a) with
          | none =>
            simp only [convFieldsWith, hn, hk, hr1] at hEq
            exact Option.noConfusion hEq
          | some pr1 =>
            obtain ⟨h1, v1⟩ := pr1
            cases hr2 : convFieldsWith recur h1 rest with
            | none =>
              simp only [convFieldsWith, hn, hk, hr1, hr2] at hEq
              exact Option.noConfusion hEq
            | some pr2 =>
              obtain ⟨h2, rest2⟩ := pr2
              simp only [convFieldsWith, hn, hk, hr1, hr2] at hEq
              cases hEq
              obtain ⟨d1, hd1⟩ := hrec h (JsVal.ref a) h1 v1 hr1
              obtain ⟨d2, hd2⟩ := ih _ _ _ hr2
              exact ⟨d1 ++ d2, by rw [hd2, hd1, List.append_assoc]⟩
        | arrayObj =>
          cases hr1 : recur h (JsVal.ref a) with
          | none =>
            simp only [convFieldsWith, hn, hk, hr1] at hEq
            exact Option.noConfusion hEq
          | some pr1 =>
            obtain ⟨h1, v1⟩ := pr1
            cases hr2 : convFieldsWith recur h1 rest with
            | none =>
              simp only [convFieldsWith, hn, hk, hr1, hr2] at hEq
              exact Option.noConfusion hEq
            | some pr2 =>
              obtain ⟨h2, rest2⟩ := pr2
              simp only [convFieldsWith, hn, hk, hr1, hr2] at hEq
              cases hEq
              obtain ⟨d1, hd1⟩ := hrec h (JsVal.ref a) h1 v1 hr1
              obtain ⟨d2, hd2⟩ := ih _ _ _ hr2
              exact ⟨d1 ++ d2, by rw [hd2, hd1, List.append_assoc]⟩

theorem convertIdFilterHeap_extends :
    ∀ (fuel : Nat) (h : Heap) (v : JsVal) (h' : Heap) (v' : JsVal),
      convertIdFilterHeap fuel h v = some (h', v') → ∃ d, h' = h ++ d := by
  intro fuel
  induction fuel with
  | zero =>
    intro h v h' v' hEq
    simp only [convertIdFilterHeap] at hEq
    exact Option.noConfusion hEq
  | succ n ih =>
    intro h v h' v' hEq
    cases v with
    | prim p =>
      simp only [convertIdFilterHeap] at hEq
      cases hEq
      exact ⟨[], by simp⟩
    | ref a =>
      cases hn : h.getNode a with
      | none =>
        simp only [convertIdFilterHeap, hn] at hEq
        exact Option.noConfusion hEq
      | some node =>
        cases hcf : coerceIdField h node.fields with
        | mk h1 fields1 =>
          cases hfw : convFieldsWith (convertIdFilterHeap n) h1 fields1 with
          | none =>
            simp only [convertIdFilterHeap, hn, hcf, hfw] at hEq
            exact Option.noConfusion hEq
          | some pr =>
            obtain ⟨h2, fields2⟩ := pr
            simp only [convertIdFilterHeap, hn, hcf, hfw, Heap.alloc] at hEq
            cases hEq
            obtain ⟨d0, hd0⟩ := coerceIdField_extends h node.fields
            rw [hcf] at hd0
            obtain ⟨d1, hd1⟩ := convFieldsWith_extends (convertIdFilterHeap n)
              ih fields1 h1 h2 fields2 hfw
            refine ⟨d0 ++ d1 ++ [⟨HKind.plainObj, fields2⟩], ?_⟩
            rw [hd1, show h1 = h ++ d0 from hd0]
            simp

theorem convertIdFilterHeap_ref_result :
    ∀ (fuel : Nat) (h : Heap) (a : Nat) (h' : Heap) (v' : JsVal),
      convertIdFilterHeap fuel h (JsVal.ref a) = some (h', v') →
      ∃ a', v' = JsVal.ref a' ∧ h.length ≤ a' ∧ a' < h'.length := by
  intro fuel h a h' v' hEq
  cases fuel with
  | zero =>
    simp only [convertIdFilterHeap] at hEq
    exact Option.noConfusion hEq
  | succ n =>
    cases hn : h.getNode a with
    | none =>
      simp only [convertIdFilterHeap, hn] at hEq
      exact Option.noConfusion hEq
    | some node =>
      cases hcf : coerceIdField h node.fields with
      | mk h1 fields1 =>
        cases hfw : convFieldsWith (convertIdFilterHeap n) h1 fields1 with
        | none =>
          simp only [convertIdFilterHeap, hn, hcf, hfw] at hEq
          exact Option.noConfusion hEq
        | some pr =>
          obtain ⟨h2, fields2⟩ := pr
          simp only [convertIdFilterHeap, hn, hcf, hfw, Heap.alloc] at hEq
          cases hEq
          obtain ⟨d0, hd0⟩ := coerceIdField_extends h node.fields
          rw [hcf] at hd0
          obtain ⟨d1, hd1⟩ := convFieldsWith_extends (convertIdFilterHeap n)
            (convertIdFilterHeap_extends n) fields1 h1 h2 fields2 hfw
          refine ⟨h2.length, rfl, ?_, ?_⟩
          · rw [hd1, show h1 = h ++ d0 from hd0]
            simp
          · simp

/-- C10: the heap embedding of `convertIdFilter` never mutates its argument:
whenever the call returns, every address that existed before the call still
holds exactly the same object (so the caller's filter object and every nested
object are unchanged); an argument that is `null` or not an object is
returned itself with the heap untouched; an object argument yields a
reference to a freshly built object, at an address that did not exist before
the call. -/
theorem convertIdFilter_no_mutation (fuel : Nat) (h : Heap) (v : JsVal)
    (h' : Heap) (v' : JsVal)
    (hEq : convertIdFilterHeap fuel h v = some (h', v')) :
    (∀ i, i < h.length → h'.get? i = h.get? i)
  ∧ (∀ p, v = JsVal.prim p → h' = h ∧ v' = v)
  ∧ (∀ a, v = JsVal.ref a → ∃ a', v' = JsVal.ref a' ∧ h.length ≤ a') := by
  refine ⟨?_, ?_, ?_⟩
  · intro i hi
    obtain ⟨d, hd⟩ := convertIdFilterHeap_extends fuel h v h' v' hEq
    rw [hd]
    exact List.get?_append hi
  · intro p hp
    subst hp
    cases fuel with
    | zero => simp only [convertIdFilterHeap] at hEq; cases hEq
    | succ n =>
      simp only [convertIdFilterHeap] at hEq
      cases hEq
      exact ⟨rfl, rfl⟩
  · intro a ha
    subst ha
    obtain ⟨a', hv', hle, _⟩ := convertIdFilterHeap_ref_result fuel h a h' v' hEq
    exact ⟨a', hv', hle⟩

/-- Witness for the C10 theorem: a one-object heap holding
`{_id: "507f1f77bcf86cd799439011", tag: 1}`; after the call the original
object at address 0 is untouched and the result is a fresh reference. -/
theorem convertIdFilter_no_mutation_witness :
    ([⟨HKind.plainObj,
        [("_id", JsVal.prim (JsPrim.str "507f1f77bcf86cd799439011")),
         ("tag", JsVal.prim (JsPrim.num 1))]⟩,
      ⟨HKind.objectId "507f1f77bcf86cd799439011", []⟩,
      ⟨HKind.plainObj,
        [("_id", JsVal.ref 1), ("tag", JsVal.prim (JsPrim.num 1))]⟩] : Heap).get? 0
      = ([⟨HKind.plainObj,
          [("_id", JsVal.prim (JsPrim.str "507f1f77bcf86cd799439011")),
           ("tag", JsVal.prim (JsPrim.num 1))]⟩] : Heap).get? 0
  ∧ (∃ a', (JsVal.ref 2 : JsVal) = JsVal.ref a' ∧ 1 ≤ a') := by
  have h1 : isValidObjectIdString "507f1f77bcf86cd799439011" = true := by decide
  have hEq : convertIdFilterHeap 2
      [⟨HKind.plainObj,
        [("_id", JsVal.prim (JsPrim.str "507f1f77bcf86cd799439011")),
         ("tag", JsVal.prim (JsPrim.num 1))]⟩] (JsVal.ref 0)
      = some ([⟨HKind.plainObj,
          [("_id", JsVal.prim (JsPrim.str "507f1f77bcf86cd799439011")),
           ("tag", JsVal.prim (JsPrim.num 1))]⟩,
        ⟨HKind.objectId "507f1f77bcf86cd799439011", []⟩,
        ⟨HKind.plainObj,
          [("_id", JsVal.ref 1), ("tag", JsVal.prim (JsPrim.num 1))]⟩],
        JsVal.ref 2) := by
    simp [convertIdFilterHeap, convFieldsWith, coerceIdField, lookupField,
      setFieldVal, Heap.alloc, Heap.getNode, h1]
  exact ⟨(convertIdFilter_no_mutation 2 _ _ _ _ hEq).1 0 (by decide),
    (convertIdFilter_no_mutation 2 _ _ _ _ hEq).2.2 0 rfl⟩

end MongoSync
